import Mathlib

/-!
Shallow embedding of `src/trainqgag.py` (repository ViQAG).

External libraries are modelled as parameters or idealized functions:
* the spacy pipeline `nlp` (used only to turn a sentence into a token list)
  is a parameter `tok : String → List String`;
* `ViTokenizer.tokenize` (string to string) is a parameter
  `vtok : String → String`;
* NLTK's `sentence_bleu` is embedded below following NLTK's
  `corpus_bleu` specialized to a single sentence pair and a single
  reference: clipped modified n-gram precision (`modified_precision`),
  brevity penalty (`brevity_penalty`), and the weighted exp/log
  aggregation.  Python floats are modelled as real numbers; NLTK's
  substitution of `sys.float_info.min` for a zero precision (its `method0`
  smoothing, whose own documentation says the score then "evaluates to 0")
  is modelled as an exact zero factor.  The float literal `0.33` in the
  weight table is modelled as the rational `33/100`.

Python's `ZeroDivisionError` (reachable in `bleu` when averaging an empty
score list) and `KeyError` (reachable in `main` at `outputs[0]`) are
modelled with `Option`: `none` is the uncaught exception.
-/

namespace ViQAG

/-- Token lists coming out of the tokenizer are compared for equality as
n-grams, so we work with `List String` tokens throughout. -/
abbrev Tokens := List String

/-- Contiguous n-grams of a token list (NLTK `ngrams`): all windows of
length `n`; empty when the list is shorter than `n`. -/
def ngrams (n : Nat) (xs : Tokens) : List Tokens :=
  (List.range (xs.length + 1 - n)).map (fun i => (xs.drop i).take n)

/-- Number of occurrences of the n-gram `g` in a list of n-grams
(a `Counter` lookup). -/
def gcount (g : Tokens) (l : List Tokens) : Nat :=
  @List.count _ instBEqOfDecidableEq g l

/-- Numerator of NLTK `modified_precision` for a single reference: for each
distinct n-gram of the hypothesis, its hypothesis count clipped by its
count in the reference. -/
def clippedCount (refNg hypNg : List Tokens) : Nat :=
  (hypNg.dedup.map (fun g => min (gcount g hypNg) (gcount g refNg))).sum

/-- NLTK `modified_precision` for a single reference, as a rational:
clipped count over `max 1 (number of hypothesis n-grams)`. -/
def modified_precision (refT hypT : Tokens) (n : Nat) : ℚ :=
  (clippedCount (ngrams n refT) (ngrams n hypT) : ℚ) / (max 1 (ngrams n hypT).length : ℚ)

/-- NLTK `brevity_penalty`: 1 when the hypothesis is longer than the
reference, 0 for an empty hypothesis, `exp (1 - ref/hyp)` otherwise. -/
noncomputable def brevity_penalty (refLen hypLen : Nat) : ℝ :=
  if refLen < hypLen then 1
  else if hypLen = 0 then 0
  else Real.exp (1 - (refLen : ℝ) / (hypLen : ℝ))

/-- NLTK `sentence_bleu` with a single reference `refT` and hypothesis
`hypT`.  Following `corpus_bleu`: compute `p_1 .. p_4` (the weight tuples
of this program all have length 4), return 0 when the unigram numerator is
0, otherwise multiply the brevity penalty by
`exp (Σ w_i * log p_i)` over the precisions; a zero precision paired with
a positive weight (NLTK substitutes the smallest positive float for it)
is modelled as making the score exactly 0, and a zero precision paired
with a zero weight contributes nothing. -/
noncomputable def sentence_bleu (refT hypT : Tokens) (weights : List ℚ) : ℝ :=
  let ps : List ℚ := (List.range 4).map (fun i => modified_precision refT hypT (i + 1))
  if ps.headD 0 = 0 then 0
  else if ∃ wp ∈ weights.zip ps, 0 < wp.1 ∧ wp.2 = 0 then 0
  else
    brevity_penalty refT.length hypT.length *
      Real.exp ((((weights.zip ps).filter (fun wp => decide (wp.2 ≠ 0))).map
        (fun wp => (wp.1 : ℝ) * Real.log (wp.2 : ℝ))).sum)

/-- The weight table `ws` of `bleu` (line 82); `0.5`, `0.33`, `0.25` are
the rationals `1/2`, `33/100`, `1/4`. -/
def ws : List (List ℚ) :=
  [[1, 0, 0, 0], [1/2, 1/2, 0, 0], [33/100, 33/100, 33/100, 0], [1/4, 1/4, 1/4, 1/4]]

/-- Score of one prediction/reference pair at order `n` (lines 84-87):
`sentence_bleu([sent1_tokens], sent2_tokens, weights=ws[n-1])`, where
`sent1` is the prediction (passed as the reference) and `sent2` the goal
(passed as the hypothesis). -/
noncomputable def pairScore (tok : String → List String) (pq : String × String) (n : Nat) : ℝ :=
  sentence_bleu (tok pq.1) (tok pq.2) (ws.getD (n - 1) [])

/-- The dictionary `bleu_scores = {1: [], 2: [], 3: [], 4: []}` of `bleu`. -/
structure ScoreLists where
  l1 : List ℝ
  l2 : List ℝ
  l3 : List ℝ
  l4 : List ℝ

/-- One iteration of the loop body of `bleu`: append this pair's score to
each of the four lists. -/
noncomputable def bleuStep (tok : String → List String) (acc : ScoreLists)
    (pq : String × String) : ScoreLists :=
  ⟨acc.l1 ++ [pairScore tok pq 1], acc.l2 ++ [pairScore tok pq 2],
   acc.l3 ++ [pairScore tok pq 3], acc.l4 ++ [pairScore tok pq 4]⟩

/-- The loop `for sent1, sent2 in zip(predict, goal)` of `bleu`, filling
the four score lists. -/
noncomputable def bleuLoop (tok : String → List String)
    (pairs : List (String × String)) : ScoreLists :=
  pairs.foldl (bleuStep tok) ⟨[], [], [], []⟩

/-- The averaging step `(sum(bleu_scores[n]) / len(bleu_scores[n])) * 100`
(lines 91-92).  `none` models the `ZeroDivisionError` raised when the list
is empty. -/
noncomputable def bleuAvg (scores : List ℝ) : Option ℝ :=
  if scores.length = 0 then none else some ((scores.sum / (scores.length : ℝ)) * 100)

/-- The result dictionary of `bleu`, keys `"BLEU1" .. "BLEU4"`. -/
structure BleuResult where
  BLEU1 : ℝ
  BLEU2 : ℝ
  BLEU3 : ℝ
  BLEU4 : ℝ

/-- The function `bleu(predict, goal)` (lines 76-93). `none` models the
uncaught `ZeroDivisionError`; the function performs no input validation. -/
noncomputable def bleu (tok : String → List String) (predict goal : List String) :
    Option BleuResult :=
  let ls := bleuLoop tok (predict.zip goal)
  do
    let a1 ← bleuAvg ls.l1
    let a2 ← bleuAvg ls.l2
    let a3 ← bleuAvg ls.l3
    let a4 ← bleuAvg ls.l4
    pure ⟨a1, a2, a3, a4⟩

/-- The BLEU aggregation as the specification words it: iterate over the
prediction/reference pairs, score each pair with `sentence_bleu` at
orders 1..4 with the listed weight tuples, and for each order return the
arithmetic mean of the per-pair scores scaled by 100 (rejecting an empty
pair list). -/
noncomputable def bleuSpec (tok : String → List String) (predict goal : List String) :
    Option BleuResult :=
  let pairs := predict.zip goal
  if pairs.length = 0 then none
  else
    some ⟨((pairs.map (fun pq => pairScore tok pq 1)).sum / (pairs.length : ℝ)) * 100,
          ((pairs.map (fun pq => pairScore tok pq 2)).sum / (pairs.length : ℝ)) * 100,
          ((pairs.map (fun pq => pairScore tok pq 3)).sum / (pairs.length : ℝ)) * 100,
          ((pairs.map (fun pq => pairScore tok pq 4)).sum / (pairs.length : ℝ)) * 100⟩

/-- A dataset record as exposed by the remote hub: the five string fields
used by the formatting functions. -/
structure Example where
  instruction_qg : String
  instruction_ag : String
  context : String
  question : String
  answer : String

/-- The pair returned by the formatting functions. -/
structure FormattedExample where
  input_seq : String
  output_seq : String

/-- `formatting_func_qg` (lines 48-59); `vtok` stands for
`ViTokenizer.tokenize`. -/
def formatting_func_qg (vtok : String → String) (ex : Example) : FormattedExample :=
  { input_seq := "### Instruction: \n" ++ ex.instruction_qg ++ "\n\n### Context: \n" ++
      vtok ex.context ++ "\n\n### Answer: \n" ++ vtok ex.answer ++ "\n\n\n\n### Response: \n"
    output_seq := vtok ex.question }

/-- `formatting_func_ag` (lines 62-73). -/
def formatting_func_ag (vtok : String → String) (ex : Example) : FormattedExample :=
  { input_seq := "### Instruction: \n" ++ ex.instruction_ag ++ "\n\n### Context: \n" ++
      vtok ex.context ++ "\n\n### Question: \n" ++ vtok ex.question ++ "\n\n\n\n### Response: \n"
    output_seq := vtok ex.answer }

/-- The `Config` dataclass (lines 25-41) with its default field values;
the float defaults `1e-4`, `0.05`, `0.015` are the rationals
`1/10000`, `1/20`, `3/200`. -/
structure Config where
  model_name : String := "vit5"
  dataset_name : String := "vinewsqa"
  pretrained_model_name_or_path : String := "VietAI/vit5-base"
  checkpoint : String := "/kaggle/working/cp"
  task : String := "ag"
  tgt_len : Nat := 256
  src_len : Nat := 1024
  seed : Nat := 42
  num_proc : Nat := 16
  per_device_train_batch_size : Nat := 4
  per_device_eval_batch_size : Nat := 16
  num_epochs : Nat := 10
  lr : ℚ := 1/10000
  warmup_ratio : ℚ := 1/20
  weight_decay : ℚ := 3/200

/-- The `__post_init__` hook (lines 43-45): a `bartpho` model name
rewrites the pretrained checkpoint path. -/
def post_init (c : Config) : Config :=
  if c.model_name = "bartpho" then
    { c with pretrained_model_name_or_path := "vinai/bartpho-word-base" }
  else c

/-- `Config(model_name)` as constructed on line 225 of `main`: only
`model_name` is passed, every other field keeps its default, then
`__post_init__` runs. -/
def mkConfig (model_name : String) : Config :=
  post_init { model_name := model_name }

/-- The formatting function selected by the branch of `prepare_data`
(lines 102-115): `formatting_func_qg` exactly when `conf.task == 'qg'`,
`formatting_func_ag` in every other case. -/
def prepare_data_formatter (conf : Config) :
    (String → String) → Example → FormattedExample :=
  if conf.task = "qg" then formatting_func_qg else formatting_func_ag

/-- JSON values, as far as the persisted artifacts need them. -/
inductive Json where
  | str : String → Json
  | num : ℝ → Json
  | arr : List Json → Json
  | obj : List (String × Json) → Json

/-- One `json.dump(obj, f, ...)` call together with the options it is
made with and the encoding the target file was opened with. -/
structure DumpCall where
  obj : List (String × Json)
  ensure_ascii : Bool
  indent : Option Nat
  encoding : String

/-- The object dumped by `compute_metric` (line 149):
`{'predictions': predictions, 'references': references}`, both lists of
decoded strings. -/
def results_json (predictions references : List String) : List (String × Json) :=
  [("predictions", Json.arr (predictions.map Json.str)),
   ("references", Json.arr (references.map Json.str))]

/-- The `json.dump` call of `compute_metric` (lines 148-149): file opened
with `encoding='utf-8'`, dumped with `ensure_ascii=False, indent=2`. -/
def compute_metric_dump (predictions references : List String) : DumpCall :=
  { obj := results_json predictions references
    ensure_ascii := false
    indent := some 2
    encoding := "utf-8" }

/-- The `results` object of `main` (lines 260-265); the four metric
values come from external metric libraries and are abstract here. -/
def scores_json (bleu_score rouge_results meteor_results bert_score_mean_f1 : Json) :
    List (String × Json) :=
  [("bleu_score", bleu_score), ("rouge_results", rouge_results),
   ("meteor_results", meteor_results), ("bert_score_mean_f1", bert_score_mean_f1)]

/-- The `json.dump` call at the end of `main` (lines 269-270). -/
def main_scores_dump (bleu_score rouge_results meteor_results bert_score_mean_f1 : Json) :
    DumpCall :=
  { obj := scores_json bleu_score rouge_results meteor_results bert_score_mean_f1
    ensure_ascii := false
    indent := some 2
    encoding := "utf-8" }

/-- A Python dictionary key: this program subscripts the dictionary
returned by `preprocess_and_train` both with strings and with the
integer `0`. -/
inductive PyKey where
  | s : String → PyKey
  | i : Int → PyKey
deriving DecidableEq

/-- The dictionary returned by `compute_metric` / `preprocess_and_train`
(line 151): keys `'predictions'` and `'references'` only. -/
def outputsDict (predictions references : List String) : List (PyKey × List String) :=
  [(PyKey.s "predictions", predictions), (PyKey.s "references", references)]

/-- Python dictionary subscription `d[k]`: `none` models the `KeyError`
raised when the key is absent. -/
def dictGet {α : Type} (d : List (PyKey × α)) (k : PyKey) : Option α :=
  (d.find? (fun kv => decide (kv.1 = k))).map (fun kv => kv.2)

/-- The tail of `main` after `preprocess_and_train` returns `outputs`
(lines 241-270): first `print(outputs[0])` subscripts the dictionary with
the integer `0`; only if that succeeds does `main` go on to compute the
metrics (abstracted into the four `Json` arguments) and produce the
`scores.json` dump.  `none` models termination by an uncaught exception. -/
def main_tail (predictions references : List String)
    (bleu_score rouge_results meteor_results bert_score_mean_f1 : Json) : Option DumpCall := do
  let _ ← dictGet (outputsDict predictions references) (PyKey.i 0)
  pure (main_scores_dump bleu_score rouge_results meteor_results bert_score_mean_f1)

/-- A concrete tokenizer turning a sentence into a single token (as the
spacy pipeline does on a one-word sentence); used only to instantiate the
tokenizer parameter on concrete inputs. -/
def oneTok (s : String) : List String := [s]

/-- A concrete tokenizer turning a sentence into four tokens; used only to
instantiate the tokenizer parameter on concrete inputs. -/
def fourTok (s : String) : List String := [s, s, s, s]

/-! Helper lemmas. -/

/-- A list of nonpositive reals has nonpositive sum. -/
theorem list_sum_nonpos {l : List ℝ} (h : ∀ x ∈ l, x ≤ 0) : l.sum ≤ 0 := by
  induction l with
  | nil => simp
  | cons a t ih =>
    simp only [List.sum_cons]
    have ha := h a (List.mem_cons_self a t)
    have ht := ih (fun x hx => h x (List.mem_cons_of_mem a hx))
    linarith

/-- A list whose members all equal 1 sums to its length. -/
theorem sum_eq_length_of_all_one {scores : List ℝ} (h1 : ∀ x ∈ scores, x = 1) :
    scores.sum = scores.length := by
  induction scores with
  | nil => simp
  | cons a t ih =>
    have ha := h1 a (List.mem_cons_self a t)
    have ht := ih (fun x hx => h1 x (List.mem_cons_of_mem a hx))
    simp only [List.sum_cons, ha, ht, List.length_cons]
    push_cast
    ring

/-- The scaled average of a nonempty list of values in `[0, 1]` lies in
`[0, 100]`. -/
theorem avg_bounds {scores : List ℝ} (h : scores ≠ [])
    (h0 : ∀ x ∈ scores, 0 ≤ x) (h1 : ∀ x ∈ scores, x ≤ 1) :
    0 ≤ (scores.sum / (scores.length : ℝ)) * 100 ∧
      (scores.sum / (scores.length : ℝ)) * 100 ≤ 100 := by
  have hlen : 0 < (scores.length : ℝ) := by
    have := List.length_pos.mpr h
    exact_mod_cast this
  constructor
  · exact mul_nonneg (div_nonneg (List.sum_nonneg h0) hlen.le) (by norm_num)
  · have hs : scores.sum ≤ (scores.length : ℝ) := by
      have := List.sum_le_card_nsmul scores 1 h1
      simpa using this
    have hd : scores.sum / (scores.length : ℝ) ≤ 1 := (div_le_one hlen).mpr hs
    linarith

/-- The scaled average of a nonempty list of ones is 100. -/
theorem avg_of_ones {scores : List ℝ} (h : scores ≠ []) (h1 : ∀ x ∈ scores, x = 1) :
    (scores.sum / (scores.length : ℝ)) * 100 = 100 := by
  have hlen : ((scores.length : ℝ)) ≠ 0 := by
    have := List.length_pos.mpr h
    positivity
  rw [sum_eq_length_of_all_one h1, div_self hlen, one_mul]

/-- Unfolding the fold of the `bleu` loop over an arbitrary accumulator. -/
theorem foldl_bleuStep (tok : String → List String) (pairs : List (String × String))
    (acc : ScoreLists) :
    pairs.foldl (bleuStep tok) acc =
      ⟨acc.l1 ++ pairs.map (fun pq => pairScore tok pq 1),
       acc.l2 ++ pairs.map (fun pq => pairScore tok pq 2),
       acc.l3 ++ pairs.map (fun pq => pairScore tok pq 3),
       acc.l4 ++ pairs.map (fun pq => pairScore tok pq 4)⟩ := by
  induction pairs generalizing acc with
  | nil => simp
  | cons p ps ih => simp [List.foldl_cons, bleuStep, ih, List.append_assoc]

/-- The score lists built by the loop of `bleu` are the per-pair scores in
order. -/
theorem bleuLoop_eq (tok : String → List String) (pairs : List (String × String)) :
    bleuLoop tok pairs =
      ⟨pairs.map (fun pq => pairScore tok pq 1), pairs.map (fun pq => pairScore tok pq 2),
       pairs.map (fun pq => pairScore tok pq 3), pairs.map (fun pq => pairScore tok pq 4)⟩ := by
  simp [bleuLoop, foldl_bleuStep]

/-- Zipping a list with itself pairs every member with itself. -/
theorem zip_self {α : Type} (l : List α) : l.zip l = l.map (fun a => (a, a)) := by
  induction l with
  | nil => rfl
  | cons a t ih => simp [List.zip_cons_cons, ih]

/-- `zip` only sees the first `min` elements of each list. -/
theorem zip_take_min {α β : Type} (p : List α) (g : List β) :
    p.zip g = (p.take (min p.length g.length)).zip (g.take (min p.length g.length)) := by
  induction p generalizing g with
  | nil => simp
  | cons a p ih =>
    cases g with
    | nil => simp
    | cons b g => simp [Nat.succ_min_succ, List.zip_cons_cons, ih]

/-- The clipped count never exceeds the number of hypothesis n-grams. -/
theorem clippedCount_le (refNg hypNg : List Tokens) : clippedCount refNg hypNg ≤ hypNg.length :=
  calc clippedCount refNg hypNg
      ≤ (hypNg.dedup.map (fun g => gcount g hypNg)).sum :=
        List.sum_le_sum (fun _ _ => min_le_left _ _)
    _ = hypNg.length := List.sum_map_count_dedup_eq_length hypNg

/-- Modified precision is nonnegative. -/
theorem modified_precision_nonneg (refT hypT : Tokens) (n : Nat) :
    0 ≤ modified_precision refT hypT n := by
  rw [modified_precision]
  positivity

/-- Modified precision never exceeds 1. -/
theorem modified_precision_le_one (refT hypT : Tokens) (n : Nat) :
    modified_precision refT hypT n ≤ 1 := by
  rw [modified_precision]
  apply div_le_one_of_le₀
  · exact_mod_cast le_trans (clippedCount_le _ _) (le_max_right 1 _)
  · positivity

/-- The number of n-gram windows. -/
theorem length_ngrams (n : Nat) (xs : Tokens) : (ngrams n xs).length = xs.length + 1 - n := by
  simp [ngrams]

/-- Clipping a list of n-grams against itself changes nothing. -/
theorem clippedCount_self (ng : List Tokens) : clippedCount ng ng = ng.length := by
  simp only [clippedCount, min_self]
  exact List.sum_map_count_dedup_eq_length ng

/-- Modified precision of a token list against itself is 1 whenever there
is at least one window. -/
theorem modified_precision_self (t : Tokens) (n : Nat) (h : n ≤ t.length) :
    modified_precision t t n = 1 := by
  rw [modified_precision, clippedCount_self, length_ngrams]
  have h1 : (1:ℚ) ≤ ((t.length + 1 - n : Nat) : ℚ) := by
    have : 1 ≤ t.length + 1 - n := by omega
    exact_mod_cast this
  rw [max_eq_right h1, div_self]
  have : t.length + 1 - n ≠ 0 := by omega
  exact_mod_cast this

/-- The brevity penalty is nonnegative. -/
theorem brevity_penalty_nonneg (r h : Nat) : 0 ≤ brevity_penalty r h := by
  rw [brevity_penalty]
  split_ifs
  · norm_num
  · norm_num
  · positivity

/-- The brevity penalty never exceeds 1. -/
theorem brevity_penalty_le_one (r h : Nat) : brevity_penalty r h ≤ 1 := by
  rw [brevity_penalty]
  split_ifs with h1 h2
  · exact le_refl 1
  · norm_num
  · rw [Real.exp_le_one_iff]
    have hh : 0 < (h:ℝ) := by
      have : 0 < h := Nat.pos_of_ne_zero h2
      exact_mod_cast this
    have hle : (h:ℝ) ≤ (r:ℝ) := by exact_mod_cast le_of_not_lt h1
    have : 1 ≤ (r:ℝ) / (h:ℝ) := (one_le_div hh).mpr hle
    linarith

/-- The brevity penalty of equal nonzero lengths is 1. -/
theorem brevity_penalty_self (L : Nat) (h : L ≠ 0) : brevity_penalty L L = 1 := by
  rw [brevity_penalty, if_neg (lt_irrefl L), if_neg h]
  rw [div_self (by exact_mod_cast h : ((L:ℝ) ≠ 0))]
  norm_num

/-- The embedded `sentence_bleu` is nonnegative. -/
theorem sentence_bleu_nonneg (refT hypT : Tokens) (w : List ℚ) :
    0 ≤ sentence_bleu refT hypT w := by
  rw [sentence_bleu]
  split_ifs
  · exact le_refl 0
  · exact le_refl 0
  · exact mul_nonneg (brevity_penalty_nonneg _ _) (Real.exp_nonneg _)

/-- The embedded `sentence_bleu` never exceeds 1 for nonnegative weights. -/
theorem sentence_bleu_le_one (refT hypT : Tokens) (w : List ℚ) (hw : ∀ x ∈ w, 0 ≤ x) :
    sentence_bleu refT hypT w ≤ 1 := by
  rw [sentence_bleu]
  split_ifs with h1 h2
  · norm_num
  · norm_num
  · refine mul_le_one₀ (brevity_penalty_le_one _ _) (Real.exp_nonneg _) ?_
    rw [Real.exp_le_one_iff]
    apply list_sum_nonpos
    intro x hx
    simp only [List.mem_map] at hx
    obtain ⟨wp, hwp, rfl⟩ := hx
    have hmem := List.mem_of_mem_filter hwp
    have hw1 : (0:ℚ) ≤ wp.1 := hw _ (List.of_mem_zip hmem).1
    have hpmem := (List.of_mem_zip hmem).2
    simp only [List.mem_map, List.mem_range] at hpmem
    obtain ⟨i, _, hpi⟩ := hpmem
    have h0 : (0:ℚ) ≤ wp.2 := hpi ▸ modified_precision_nonneg refT hypT (i + 1)
    have hle : wp.2 ≤ 1 := hpi ▸ modified_precision_le_one refT hypT (i + 1)
    apply mul_nonpos_of_nonneg_of_nonpos
    · exact_mod_cast hw1
    · exact Real.log_nonpos (by exact_mod_cast h0) (by exact_mod_cast hle)

/-- The embedded `sentence_bleu` of a token list of length at least 4
against itself is 1, whatever the weights. -/
theorem sentence_bleu_self (t : Tokens) (h4 : 4 ≤ t.length) (w : List ℚ) :
    sentence_bleu t t w = 1 := by
  have hps : (List.range 4).map (fun i => modified_precision t t (i + 1)) = [1, 1, 1, 1] := by
    have e1 := modified_precision_self t 1 (by omega)
    have e2 := modified_precision_self t 2 (by omega)
    have e3 := modified_precision_self t 3 (by omega)
    have e4 := modified_precision_self t 4 (by omega)
    norm_num [List.range_succ, e1, e2, e3, e4]
  have hz : ¬ ∃ wp ∈ w.zip ([1, 1, 1, 1] : List ℚ), 0 < wp.1 ∧ wp.2 = 0 := by
    rintro ⟨wp, hmem, _, hzero⟩
    have h2 : wp.2 ∈ ([1, 1, 1, 1] : List ℚ) := (List.of_mem_zip hmem).2
    rw [hzero] at h2
    norm_num at h2
  rw [sentence_bleu]
  simp only [hps]
  rw [if_neg (show ¬ (([1, 1, 1, 1] : List ℚ).headD 0 = 0) by norm_num), if_neg hz]
  rw [brevity_penalty_self t.length (by omega), one_mul, Real.exp_eq_one_iff]
  apply List.sum_eq_zero
  intro x hx
  simp only [List.mem_map] at hx
  obtain ⟨wp, hwp, rfl⟩ := hx
  have hmem : wp.2 ∈ ([1, 1, 1, 1] : List ℚ) :=
    (List.of_mem_zip (List.mem_of_mem_filter hwp)).2
  have h2 : wp.2 = 1 := by simpa using hmem
  rw [h2]
  push_cast
  rw [Real.log_one, mul_zero]

/-- Every weight in every tuple of the weight table is nonnegative. -/
theorem ws_getD_nonneg (k : Nat) : ∀ x ∈ ws.getD k [], (0:ℚ) ≤ x := by
  intro x hx
  match k with
  | 0 => simp [ws] at hx; rcases hx with rfl | rfl | rfl | rfl <;> norm_num
  | 1 => simp [ws] at hx; rcases hx with rfl | rfl | rfl | rfl <;> norm_num
  | 2 => simp [ws] at hx; rcases hx with rfl | rfl | rfl | rfl <;> norm_num
  | 3 => simp [ws] at hx; rcases hx with rfl | rfl | rfl | rfl <;> norm_num
  | (k + 4) =>
    rw [List.getD_eq_default _ _ (by simp [ws])] at hx
    simp at hx

/-- Every per-pair score is nonnegative. -/
theorem pairScore_nonneg (tok : String → List String) (pq : String × String) (n : Nat) :
    0 ≤ pairScore tok pq n :=
  sentence_bleu_nonneg _ _ _

/-- Every per-pair score is at most 1. -/
theorem pairScore_le_one (tok : String → List String) (pq : String × String) (n : Nat) :
    pairScore tok pq n ≤ 1 :=
  sentence_bleu_le_one _ _ _ (ws_getD_nonneg (n - 1))

/-- Evaluation of `bleu` on a nonempty pair list: each returned entry is
the scaled average of the per-pair scores at its order. -/
theorem bleu_eval (tok : String → List String) (predict goal : List String)
    (h : predict.zip goal ≠ []) :
    bleu tok predict goal = some
      ⟨(((predict.zip goal).map (fun pq => pairScore tok pq 1)).sum /
          (((predict.zip goal).map (fun pq => pairScore tok pq 1)).length : ℝ)) * 100,
       (((predict.zip goal).map (fun pq => pairScore tok pq 2)).sum /
          (((predict.zip goal).map (fun pq => pairScore tok pq 2)).length : ℝ)) * 100,
       (((predict.zip goal).map (fun pq => pairScore tok pq 3)).sum /
          (((predict.zip goal).map (fun pq => pairScore tok pq 3)).length : ℝ)) * 100,
       (((predict.zip goal).map (fun pq => pairScore tok pq 4)).sum /
          (((predict.zip goal).map (fun pq => pairScore tok pq 4)).length : ℝ)) * 100⟩ := by
  have h0 : ¬ ((predict.zip goal).length = 0) := by
    simpa [List.length_eq_zero] using h
  rw [bleu, bleuLoop_eq]
  simp only [bleuAvg, List.length_map, if_neg h0, Option.bind_eq_bind, Option.some_bind]
  rfl

/-- The pair score of a one-token sentence against itself under the BLEU-2
weight tuple `(0.5, 0.5, 0, 0)` is 0: there is no bigram, so the second
modified precision is 0 while its weight is positive. -/
theorem sentence_bleu_one_token_half_weights :
    sentence_bleu ["a"] ["a"] [((2:ℚ))⁻¹, 2⁻¹, 0, 0] = 0 := by
  have hps : (List.range 4).map (fun i => modified_precision ["a"] ["a"] (i + 1)) =
      [1, 0, 0, 0] := by
    have e1 : clippedCount (ngrams 1 ["a"]) (ngrams 1 ["a"]) = 1 := by decide
    have e2 : (ngrams 1 ["a"]).length = 1 := by decide
    have f2 : clippedCount (ngrams 2 ["a"]) (ngrams 2 ["a"]) = 0 := by decide
    have f3 : clippedCount (ngrams 3 ["a"]) (ngrams 3 ["a"]) = 0 := by decide
    have f4 : clippedCount (ngrams 4 ["a"]) (ngrams 4 ["a"]) = 0 := by decide
    simp [List.range_succ, modified_precision, e1, e2, f2, f3, f4]
  rw [sentence_bleu]
  simp only [hps]
  rw [if_neg (by norm_num), if_pos]
  refine ⟨(((2:ℚ))⁻¹, 0), ?_, by norm_num, rfl⟩
  norm_num

/-! Claim theorems. -/

/-- Claim C1: for empty prediction and reference lists, `bleu` reaches the
division by zero while averaging (the modelled `ZeroDivisionError`,
`none`); there is no explicit input rejection anywhere in the function, so
empty inputs are not rejected with an explicit error. -/
theorem bleu_empty_input_zero_division (tok : String → List String) :
    bleu tok ([] : List String) ([] : List String) = none := by
  rw [bleu, bleuLoop_eq]
  simp [bleuAvg]

/-- Claim C2, counterexample: for the prediction list `["a"]` equal to its
reference list, under a tokenizer giving the sentence a single token (as
spacy does for a one-word sentence), the returned BLEU2 value is 0, not
100: the sentence has no bigram, so the bigram precision is 0. -/
theorem bleu_identical_short_pair_counterexample :
    ∃ r, bleu oneTok ["a"] ["a"] = some r ∧ r.BLEU2 = 0 ∧ r.BLEU2 ≠ 100 := by
  obtain ⟨r, hr, h2⟩ : ∃ r, bleu oneTok ["a"] ["a"] = some r ∧ r.BLEU2 = 0 := by
    refine ⟨_, bleu_eval oneTok ["a"] ["a"] (by simp), ?_⟩
    simp [pairScore, oneTok, ws, sentence_bleu_one_token_half_weights]
  exact ⟨r, hr, h2, by rw [h2]; norm_num⟩

/-- Claim C2 (amended): for equal nonempty prediction and reference lists
in which every sentence tokenizes to at least 4 tokens, `bleu` returns 100
for each of BLEU1, BLEU2, BLEU3 and BLEU4 under the weight schedule. -/
theorem bleu_identical_long_scores_100 (tok : String → List String)
    (predict goal : List String) (hpg : predict = goal) (hne : predict ≠ [])
    (hlen : ∀ s ∈ predict, 4 ≤ (tok s).length) :
    bleu tok predict goal = some ⟨100, 100, 100, 100⟩ := by
  subst hpg
  have hne2 : predict.zip predict ≠ [] := by
    rw [← List.length_pos, List.length_zip]
    simpa [Nat.min_self] using List.length_pos.mpr hne
  rw [bleu_eval _ _ _ hne2]
  have key : ∀ n : Nat, (((predict.zip predict).map (fun pq => pairScore tok pq n)).sum /
      ((((predict.zip predict).map (fun pq => pairScore tok pq n)).length : Nat) : ℝ)) * 100
        = 100 := by
    intro n
    apply avg_of_ones
    · simpa [ne_eq, List.map_eq_nil_iff] using hne2
    · intro x hx
      obtain ⟨pq, hpq, rfl⟩ := List.mem_map.mp hx
      rw [zip_self] at hpq
      obtain ⟨s, hs, rfl⟩ := List.mem_map.mp hpq
      simp only [pairScore]
      exact sentence_bleu_self (tok s) (hlen s hs) _
  rw [key 1, key 2, key 3, key 4]

/-- Claim C2, witness: the amended theorem applied to the concrete
identical pair `["v"]` under a tokenizer giving each sentence 4 tokens. -/
theorem bleu_identical_long_scores_100_witness :
    (["v"] : List String) = ["v"] ∧ (["v"] : List String) ≠ [] ∧
      (∀ s ∈ (["v"] : List String), 4 ≤ (fourTok s).length) ∧
      bleu fourTok ["v"] ["v"] = some ⟨100, 100, 100, 100⟩ :=
  ⟨rfl, by simp, by intro s _; simp [fourTok],
   bleu_identical_long_scores_100 fourTok ["v"] ["v"] rfl (by simp)
     (by intro s _; simp [fourTok])⟩

/-- Claim C3: for nonempty prediction and reference lists, `bleu` returns
a result whose four values all lie in the closed interval `[0, 100]`. -/
theorem bleu_scores_in_range (tok : String → List String) (predict goal : List String)
    (hp : predict ≠ []) (hg : goal ≠ []) :
    ∃ r, bleu tok predict goal = some r ∧
      (0 ≤ r.BLEU1 ∧ r.BLEU1 ≤ 100) ∧ (0 ≤ r.BLEU2 ∧ r.BLEU2 ≤ 100) ∧
      (0 ≤ r.BLEU3 ∧ r.BLEU3 ≤ 100) ∧ (0 ≤ r.BLEU4 ∧ r.BLEU4 ≤ 100) := by
  have hne : predict.zip goal ≠ [] := by
    rw [← List.length_pos, List.length_zip]
    exact lt_min (List.length_pos.mpr hp) (List.length_pos.mpr hg)
  refine ⟨_, bleu_eval tok predict goal hne, ?_, ?_, ?_, ?_⟩ <;>
  · apply avg_bounds
    · simpa [ne_eq, List.map_eq_nil_iff] using hne
    · intro x hx
      obtain ⟨pq, _, rfl⟩ := List.mem_map.mp hx
      exact pairScore_nonneg tok pq _
    · intro x hx
      obtain ⟨pq, _, rfl⟩ := List.mem_map.mp hx
      exact pairScore_le_one tok pq _

/-- Claim C3, witness: the range theorem applied to a concrete pair of
one-sentence lists. -/
theorem bleu_scores_in_range_witness :
    (["hello"] : List String) ≠ [] ∧
      ∃ r, bleu oneTok ["hello"] ["world"] = some r ∧
        (0 ≤ r.BLEU1 ∧ r.BLEU1 ≤ 100) ∧ (0 ≤ r.BLEU2 ∧ r.BLEU2 ≤ 100) ∧
        (0 ≤ r.BLEU3 ∧ r.BLEU3 ≤ 100) ∧ (0 ≤ r.BLEU4 ∧ r.BLEU4 ≤ 100) :=
  ⟨by simp, bleu_scores_in_range oneTok ["hello"] ["world"] (by simp) (by simp)⟩

/-- Claim C4: `bleu` is deterministic: two evaluations on equal inputs
return the same result dictionary. -/
theorem bleu_deterministic (tok : String → List String) (p₁ g₁ p₂ g₂ : List String)
    (hp : p₁ = p₂) (hg : g₁ = g₂) : bleu tok p₁ g₁ = bleu tok p₂ g₂ := by
  rw [hp, hg]

/-- Claim C4, witness: determinism at a concrete input. -/
theorem bleu_deterministic_witness :
    bleu oneTok ["x"] ["y"] = bleu oneTok ["x"] ["y"] :=
  bleu_deterministic oneTok ["x"] ["y"] ["x"] ["y"] rfl rfl

/-- Claim C5: `bleu` implements the aggregation the specification
describes: iterate over prediction/reference pairs, tokenize, apply
`sentence_bleu` at orders 1..4 with the listed weight tuples, and return
for each order the arithmetic mean of the per-pair scores scaled by 100. -/
theorem bleu_matches_spec_aggregation (tok : String → List String)
    (predict goal : List String) :
    bleu tok predict goal = bleuSpec tok predict goal := by
  by_cases h : predict.zip goal = []
  · rw [bleu, bleuLoop_eq, bleuSpec]
    simp [h, bleuAvg]
  · rw [bleu_eval tok predict goal h, bleuSpec]
    rw [if_neg (by simpa [List.length_eq_zero] using h)]
    simp [List.length_map]

/-- Claim C6: the persisted artifacts have the stated shapes: the results
dump of `compute_metric` has exactly the keys `predictions` and
`references`, both arrays of strings, and the scores dump of `main` has
exactly the keys `bleu_score`, `rouge_results`, `meteor_results` and
`bert_score_mean_f1`; both dumps are made on a file opened as UTF-8 with
`ensure_ascii=False` and indentation 2. -/
theorem persisted_artifact_shapes (predictions references : List String)
    (bleu_score rouge_results meteor_results bert_score_mean_f1 : Json) :
    ((compute_metric_dump predictions references).obj.map Prod.fst =
        ["predictions", "references"]) ∧
    (∀ kv ∈ (compute_metric_dump predictions references).obj,
        ∃ ss : List String, kv.2 = Json.arr (ss.map Json.str)) ∧
    (compute_metric_dump predictions references).ensure_ascii = false ∧
    (compute_metric_dump predictions references).indent = some 2 ∧
    (compute_metric_dump predictions references).encoding = "utf-8" ∧
    ((main_scores_dump bleu_score rouge_results meteor_results bert_score_mean_f1).obj.map
        Prod.fst = ["bleu_score", "rouge_results", "meteor_results", "bert_score_mean_f1"]) ∧
    (main_scores_dump bleu_score rouge_results meteor_results bert_score_mean_f1).ensure_ascii
        = false ∧
    (main_scores_dump bleu_score rouge_results meteor_results bert_score_mean_f1).indent
        = some 2 ∧
    (main_scores_dump bleu_score rouge_results meteor_results bert_score_mean_f1).encoding
        = "utf-8" := by
  refine ⟨rfl, ?_, rfl, rfl, rfl, rfl, rfl, rfl, rfl⟩
  intro kv hkv
  simp only [compute_metric_dump, results_json, List.mem_cons, List.not_mem_nil,
    or_false] at hkv
  rcases hkv with rfl | rfl
  · exact ⟨predictions, rfl⟩
  · exact ⟨references, rfl⟩

/-- Claim C7: `formatting_func_qg` builds `input_seq` from the QG
instruction, the tokenized context and the tokenized answer, and sets
`output_seq` to the tokenized question; `formatting_func_ag` builds
`input_seq` from the AG instruction, the tokenized context and the
tokenized question, and sets `output_seq` to the tokenized answer. -/
theorem formatting_funcs_fields (vtok : String → String) (ex : Example) :
    (∃ s₁ s₂ s₃ s₄ : String, (formatting_func_qg vtok ex).input_seq =
        s₁ ++ ex.instruction_qg ++ s₂ ++ vtok ex.context ++ s₃ ++ vtok ex.answer ++ s₄) ∧
    (formatting_func_qg vtok ex).output_seq = vtok ex.question ∧
    (∃ s₁ s₂ s₃ s₄ : String, (formatting_func_ag vtok ex).input_seq =
        s₁ ++ ex.instruction_ag ++ s₂ ++ vtok ex.context ++ s₃ ++ vtok ex.question ++ s₄) ∧
    (formatting_func_ag vtok ex).output_seq = vtok ex.answer :=
  ⟨⟨"### Instruction: \n", "\n\n### Context: \n", "\n\n### Answer: \n",
      "\n\n\n\n### Response: \n", rfl⟩,
   rfl,
   ⟨"### Instruction: \n", "\n\n### Context: \n", "\n\n### Question: \n",
      "\n\n\n\n### Response: \n", rfl⟩,
   rfl⟩

/-- Claim C8: the dictionary returned through `preprocess_and_train` has
exactly the string keys `predictions` and `references`, so the
subscription `outputs[0]` in `main` raises the modelled `KeyError`
(`none`) and the scores dump that would follow is never produced. -/
theorem main_outputs_subscript_keyerror (predictions references : List String)
    (bleu_score rouge_results meteor_results bert_score_mean_f1 : Json) :
    (outputsDict predictions references).map Prod.fst =
        [PyKey.s "predictions", PyKey.s "references"] ∧
    dictGet (outputsDict predictions references) (PyKey.i 0) = none ∧
    main_tail predictions references bleu_score rouge_results meteor_results
        bert_score_mean_f1 = none :=
  ⟨rfl, rfl, rfl⟩

/-- Claim C9: for prediction and reference lists of unequal lengths, `bleu`
silently succeeds, scores exactly the first `min m n` pairs (zip
truncation), and averages over `min m n` scores. -/
theorem bleu_zip_truncates (tok : String → List String) (predict goal : List String)
    (h : 0 < min predict.length goal.length) :
    (∃ r, bleu tok predict goal = some r) ∧
    bleu tok predict goal =
      bleu tok (predict.take (min predict.length goal.length))
        (goal.take (min predict.length goal.length)) ∧
    (bleuLoop tok (predict.zip goal)).l1.length = min predict.length goal.length := by
  have hne : predict.zip goal ≠ [] := by
    rw [← List.length_pos, List.length_zip]
    exact h
  refine ⟨⟨_, bleu_eval tok predict goal hne⟩, ?_, ?_⟩
  · simp only [bleu]
    rw [← zip_take_min]
  · rw [bleuLoop_eq]
    simp [List.length_zip]

/-- Claim C9, witness: the truncation theorem at a 2-element prediction
list against a 1-element reference list. -/
theorem bleu_zip_truncates_witness :
    0 < min (["a", "b"] : List String).length (["c"] : List String).length ∧
      ((∃ r, bleu oneTok ["a", "b"] ["c"] = some r) ∧
       bleu oneTok ["a", "b"] ["c"] =
         bleu oneTok ((["a", "b"] : List String).take
             (min (["a", "b"] : List String).length (["c"] : List String).length))
           ((["c"] : List String).take
             (min (["a", "b"] : List String).length (["c"] : List String).length)) ∧
       (bleuLoop oneTok ((["a", "b"] : List String).zip (["c"] : List String))).l1.length =
         min (["a", "b"] : List String).length (["c"] : List String).length) :=
  ⟨by simp, bleu_zip_truncates oneTok ["a", "b"] ["c"] (by simp)⟩

/-- Claim C10: `main` leaves `task` at its default `ag`, `prepare_data`
selects the AG formatter for every task value other than exactly `qg`,
and therefore the formatter reached from `main` is always
`formatting_func_ag`: QG formatting is unreachable from `main`. -/
theorem main_task_always_ag :
    (∀ model_name : String, (mkConfig model_name).task = "ag") ∧
    (∀ conf : Config, conf.task ≠ "qg" →
        prepare_data_formatter conf = formatting_func_ag) ∧
    (∀ model_name : String, prepare_data_formatter (mkConfig model_name) = formatting_func_ag) := by
  have htask : ∀ model_name : String, (mkConfig model_name).task = "ag" := by
    intro m
    rw [mkConfig, post_init]
    split_ifs <;> rfl
  have hsel : ∀ conf : Config, conf.task ≠ "qg" →
      prepare_data_formatter conf = formatting_func_ag := by
    intro conf h
    rw [prepare_data_formatter, if_neg h]
  refine ⟨htask, hsel, fun m => hsel _ ?_⟩
  rw [htask m]
  decide

/-- Claim C10, witness: the selection at a concrete misspelled task value
and at the configuration `main` builds. -/
theorem main_task_always_ag_witness :
    ({ task := "xx" } : Config).task ≠ "qg" ∧
      prepare_data_formatter ({ task := "xx" } : Config) = formatting_func_ag ∧
      (mkConfig "vit5").task = "ag" ∧
      prepare_data_formatter (mkConfig "vit5") = formatting_func_ag :=
  ⟨by decide, main_task_always_ag.2.1 _ (by decide), main_task_always_ag.1 "vit5",
   main_task_always_ag.2.2 "vit5"⟩

end ViQAG
